import Mathlib

/-!
Verification development for the ssl-manager repository.

Shallow embedding of the Go sources:
* `internal/domain/parser.go` — pure domain-name helpers.
* `internal/core/validator.go` — the online-certificate renewal decision.
* `internal/core/manager.go` — the acquisition orchestrator: the DNS-01
  validation polling loop (`waitForDNSValidation`), the per-domain pipeline
  (`ProcessDomain`) and the resume entry point (`ContinueOrder`).
* the file storage `SaveCertificate`.

External effects (CA polling, DNS writes, the filesystem, the clock,
context cancellation) are modelled with explicit oracles; every observable
action of a run is recorded in an event trace.  Time is modelled at hour
granularity: a point in time is its `Int` number of hours since the epoch,
so Go's `int(time.Until(expiry).Hours() / 24)` becomes truncated integer
division of an hour difference by 24.
-/

namespace SslManager

/-! ## Domain utilities (internal/domain/parser.go) -/

/-- Accumulator form of Go `strings.Split(s, ".")` on the character list:
`acc` holds the current segment reversed. -/
def splitDotAux : List Char → List Char → List String
  | [], acc => [String.mk acc.reverse]
  | c :: cs, acc =>
    if c = '.' then String.mk acc.reverse :: splitDotAux cs []
    else splitDotAux cs (c :: acc)

/-- Go `strings.Split(domain, ".")`: split on every dot; `Split("", ".")`
is `[""]`, like here. -/
def splitDot (s : String) : List String :=
  splitDotAux s.data []

/-- `ExtractMainDomain` from parser.go: the last two dot-separated labels,
or the input unchanged when there are fewer than two. -/
def ExtractMainDomain (domain : String) : String :=
  let parts := splitDot domain
  if parts.length ≥ 2 then
    parts.getD (parts.length - 2) "" ++ "." ++ parts.getD (parts.length - 1) ""
  else domain

/-- `MatchDomain` from parser.go: exact match, or a `*.`-wildcard whose
body equals the main domain of the target.  `strings.HasPrefix(cert, "*.")`
is prefix test on the character list and `strings.TrimPrefix` under that
guard drops the two prefix characters. -/
def MatchDomain (certDomain targetDomain : String) : Bool :=
  if certDomain = targetDomain then true
  else if ("*.".data).isPrefixOf certDomain.data then
    let mainDomain := String.mk (certDomain.data.drop 2)
    mainDomain = ExtractMainDomain targetDomain
  else false

/-! ## Online certificate validator (internal/core/validator.go) -/

/-- The loop in `Validator.matchDomain`: some certificate name matches the
target. -/
def matchDomainList (certDomains : List String) (targetDomain : String) : Bool :=
  certDomains.any (fun certDomain => MatchDomain certDomain targetDomain)

/-- Result of a successful `CheckCertExpiry` probe: leaf not-after (hours
since epoch) and the covered names (common name followed by the SANs). -/
structure ProbeResult where
  expiry : Int
  certDomains : List String
  deriving Repr, DecidableEq

/-- `Validator.NeedRenew`: a failed probe (`probe = none`) yields
(true, zero time, no error); otherwise renewal is needed when no covered
name matches, or when the truncated days-to-expiry is at most `renewDays`.
The returned error is `none` on every path, as in the source. -/
def NeedRenew (probe : Option ProbeResult) (now : Int) (domain : String)
    (renewDays : Int) : Bool × Int × Option String :=
  match probe with
  | none => (true, 0, none)
  | some pr =>
    if matchDomainList pr.certDomains domain = false then
      (true, pr.expiry, none)
    else
      (decide (Int.tdiv (pr.expiry - now) 24 ≤ renewDays), pr.expiry, none)

/-! ## Acquisition orchestrator (internal/core/manager.go)

The loop body of `waitForDNSValidation` is embedded as one step function
`loopStep`; the `for i := 0; i < 60; i++` loop is `loopAux` with fuel.
The CA (`GetCertificateStatus`), the DNS host (`AddRecord`) and context
cancellation are oracles indexed by call count (for the providers) and by
loop iteration (for cancellation).  Every provider call, backoff sleep and
persistence action is appended to an event trace. -/

/-- Observable actions of a run. -/
inductive Ev
  /-- one `GetCertificateStatus` call -/
  | poll
  /-- one `AddRecord` call with its arguments -/
  | addRecord (domain recordDomain recordType recordValue : String)
  /-- a `time.Sleep` of the given number of seconds -/
  | sleep (secs : Nat)
  /-- one `FindValidCertificate` call -/
  | findValid
  /-- one `GetCertificateDetail` call by certificate id -/
  | getDetail (certID : String)
  /-- one `NeedRenew` probe of the live endpoint -/
  | needRenew
  /-- one `ApplyCertificate` call -/
  | applyCert (domain : String)
  /-- one `DownloadCertificate` call by order id -/
  | download (orderID : String)
  /-- one `SaveCertificate` call -/
  | save (domain : String)
  /-- one `RunPostCommand` invocation -/
  | hook
  deriving Repr, DecidableEq

/-- `provider.CertificateStatus` (the fields the orchestrator reads). -/
structure CertStatus where
  status : String
  recordDomain : String
  recordType : String
  recordValue : String
  deriving Repr, DecidableEq

/-- Oracles of the polling loop: CA poll results by poll count, DNS write
results by write count, cancellation by loop iteration. -/
structure LoopEnv where
  polls : Nat → Except Unit CertStatus
  dnsOk : Nat → Bool
  cancel : Nat → Bool

/-- Local state of `waitForDNSValidation` plus oracle positions and the
trace accumulated so far. -/
structure LoopState where
  dnsRecordAdded : Bool
  lastRecordDomain : String
  consecutiveErrors : Nat
  pollIdx : Nat
  dnsIdx : Nat
  trace : List Ev
  deriving Repr, DecidableEq

/-- State at the top of the loop: no record written, empty label, zero
consecutive errors, oracles at position zero, empty trace. -/
def initLoopState : LoopState :=
  { dnsRecordAdded := false, lastRecordDomain := "", consecutiveErrors := 0
    pollIdx := 0, dnsIdx := 0, trace := [] }

/-- How `waitForDNSValidation` can return. -/
inductive LoopExit
  /-- status `certificate`: `return nil` -/
  | success
  /-- `ctx.Done()` fired: `return ctx.Err()` -/
  | cancelled
  /-- three consecutive `GetCertificateStatus` failures -/
  | pollErrors
  /-- status `failed`: certificate request failed -/
  | orderFailed
  /-- the 60 iterations ran out; the error carries the order id -/
  | timeout (orderID : String)
  deriving Repr, DecidableEq

/-- Result of one loop iteration: leave the loop or continue with the next
state. -/
inductive StepRes
  | exit (e : LoopExit) (st : LoopState)
  | next (st : LoopState)
  deriving Repr, DecidableEq

/-- The `switch status.Status` of the loop body, translated case by case
from manager.go as an if-chain over the same string cases. -/
def handleStatus (env : LoopEnv) (domain : String) (status : CertStatus)
    (st : LoopState) : StepRes :=
  if status.status = "domain_verify" then
    if status.recordDomain = "" ∨ status.recordValue = "" then
      .next { st with trace := st.trace ++ [.sleep 10] }
    else if ¬ st.dnsRecordAdded ∨ ¬ st.lastRecordDomain = status.recordDomain then
      let ok := env.dnsOk st.dnsIdx
      let st : LoopState :=
        { st with dnsIdx := st.dnsIdx + 1,
                  trace := st.trace ++ [.addRecord domain status.recordDomain
                                          status.recordType status.recordValue] }
      if ok then
        .next { st with dnsRecordAdded := true,
                        lastRecordDomain := status.recordDomain,
                        trace := st.trace ++ [.sleep 20] }
      else
        .next { st with trace := st.trace ++ [.sleep 10] }
    else
      .next { st with trace := st.trace ++ [.sleep 20] }
  else if status.status = "process" then
    .next { st with trace := st.trace ++ [.sleep 20] }
  else if status.status = "certificate" then
    .exit .success st
  else if status.status = "failed" then
    .exit .orderFailed st
  else
    .next { st with trace := st.trace ++ [.sleep 15] }

/-- One iteration of the `waitForDNSValidation` loop body, translated
line by line from manager.go: cancellation check, poll, consecutive-error
bookkeeping, then the status dispatch. -/
def loopStep (env : LoopEnv) (domain : String) (i : Nat) (st : LoopState) : StepRes :=
  if env.cancel i then .exit .cancelled st
  else
    match env.polls st.pollIdx with
    | .error _ =>
      let st := { st with pollIdx := st.pollIdx + 1, trace := st.trace ++ [.poll],
                          consecutiveErrors := st.consecutiveErrors + 1 }
      if st.consecutiveErrors ≥ 3 then .exit .pollErrors st
      else .next { st with trace := st.trace ++ [.sleep 10] }
    | .ok status =>
      handleStatus env domain status
        { st with pollIdx := st.pollIdx + 1, trace := st.trace ++ [.poll],
                  consecutiveErrors := 0 }

/-- The loop `for i := 0; i < maxRetries; i++`, by fuel; exhaustion is the
timeout error carrying the order id. -/
def loopAux (env : LoopEnv) (domain orderID : String) :
    Nat → Nat → LoopState → LoopExit × LoopState
  | 0, _, st => (.timeout orderID, st)
  | fuel + 1, i, st =>
    match loopStep env domain i st with
    | .exit e st => (e, st)
    | .next st => loopAux env domain orderID fuel (i + 1) st

/-- `waitForDNSValidation`: 60 iterations from the initial state. -/
def waitForDNSValidation (env : LoopEnv) (domain orderID : String) :
    LoopExit × LoopState :=
  loopAux env domain orderID 60 0 initLoopState

/-! ### Trace projections -/

/-- Is the event a DNS write (`AddRecord` call)? -/
def isDNSWrite : Ev → Bool
  | .addRecord _ _ _ _ => true
  | _ => false

/-- Is the event a CA poll? -/
def isPoll : Ev → Bool
  | .poll => true
  | _ => false

/-- Is the event a certificate fetch by order id (`DownloadCertificate`)? -/
def isFetch : Ev → Bool
  | .download _ => true
  | _ => false

/-- The DNS writes of a trace, in order. -/
def dnsWrites (tr : List Ev) : List Ev := tr.filter isDNSWrite

/-- The number of CA polls in a trace. -/
def countPolls (tr : List Ev) : Nat := (tr.filter isPoll).length

/-- The certificate fetches of a trace, in order. -/
def fetches (tr : List Ev) : List Ev := tr.filter isFetch

/-! ### Resume entry point (`ContinueOrder`) -/

/-- Oracles of a whole run: the loop oracles plus the results of
`DownloadCertificate` and `SaveCertificate`. -/
structure RunEnv where
  polls : Nat → Except Unit CertStatus
  dnsOk : Nat → Bool
  cancel : Nat → Bool
  downloadOk : Bool
  saveOk : Bool

/-- Loop oracles of a run environment. -/
def RunEnv.loopEnv (env : RunEnv) : LoopEnv :=
  { polls := env.polls, dnsOk := env.dnsOk, cancel := env.cancel }

/-- Loop oracles of a run environment after `ContinueOrder` consumed the
first poll: the CA answers from call 1 on. -/
def RunEnv.loopEnvAfterOne (env : RunEnv) : LoopEnv :=
  { polls := fun n => env.polls (n + 1), dnsOk := env.dnsOk, cancel := env.cancel }

/-- How `ContinueOrder` can return. -/
inductive COOutcome
  /-- `return nil` -/
  | ok
  /-- the initial `GetCertificateStatus` failed -/
  | statusErr
  /-- `waitForDNSValidation` returned an error (wrapped 域名验证失败) -/
  | validationErr (e : LoopExit)
  /-- `DownloadCertificate` failed -/
  | downloadErr
  /-- `SaveCertificate` failed -/
  | saveErr
  deriving Repr, DecidableEq

/-- `Manager.ContinueOrder` from manager.go: check the order status once;
if it is already `certificate` download and save; otherwise run
`waitForDNSValidation` (whose polls start at call 1) and then download and
save.  Provider construction from the two provider names is assumed to
succeed (it is configuration lookup, modelled out).  No post-command is
ever run on this path, as in the source. -/
def ContinueOrder (env : RunEnv) (orderID domain : String) : COOutcome × List Ev :=
  match env.polls 0 with
  | .error _ => (.statusErr, [.poll])
  | .ok status =>
    if status.status = "certificate" then
      if env.downloadOk then
        if env.saveOk then (.ok, [.poll, .download orderID, .save domain])
        else (.saveErr, [.poll, .download orderID, .save domain])
      else (.downloadErr, [.poll, .download orderID])
    else
      let r := waitForDNSValidation env.loopEnvAfterOne domain orderID
      let tr := Ev.poll :: r.2.trace
      match r.1 with
      | .success =>
        if env.downloadOk then
          if env.saveOk then (.ok, tr ++ [.download orderID, .save domain])
          else (.saveErr, tr ++ [.download orderID, .save domain])
        else (.downloadErr, tr ++ [.download orderID])
      | e => (.validationErr e, tr)

/-! ### Per-domain pipeline (`ProcessDomain`) -/

/-- `provider.CertificateInfo` (the fields the pipeline reads). -/
structure CertInfo where
  certID : String
  notAfter : Int
  deriving Repr, DecidableEq

/-- Oracles of a `ProcessDomain` run. `saveOk` is indexed by save-call
count because the pipeline may call `SaveCertificate` twice (once for a
reused certificate, once for a freshly issued one). -/
structure PDEnv where
  providersOk : Bool
  findValid : Except Unit (Option CertInfo)
  getDetailOk : Bool
  probe : Option ProbeResult
  now : Int
  applyRes : Except Unit String
  polls : Nat → Except Unit CertStatus
  dnsOk : Nat → Bool
  cancel : Nat → Bool
  downloadOk : Bool
  saveOk : Nat → Bool
  postCommand : String
  globalPostCommand : String

/-- Loop oracles of a pipeline environment. -/
def PDEnv.loopEnv (env : PDEnv) : LoopEnv :=
  { polls := env.polls, dnsOk := env.dnsOk, cancel := env.cancel }

/-- How `ProcessDomain` can return. -/
inductive PDOutcome
  /-- `return nil` -/
  | ok
  /-- provider construction failed -/
  | providersErr
  /-- `ApplyCertificate` failed -/
  | applyErr
  /-- `waitForDNSValidation` returned an error -/
  | validationErr (e : LoopExit)
  /-- `DownloadCertificate` failed -/
  | downloadErr
  /-- `SaveCertificate` failed on the issuance path -/
  | saveErr
  deriving Repr, DecidableEq

/-- Step 3 of `ProcessDomain`: the post command of the domain, or the
global one when the domain has none; when non-empty the Executor runs it
(its failure is only logged, so it does not affect the outcome). -/
def postHookStep (env : PDEnv) (tr : List Ev) : PDOutcome × List Ev :=
  let postCommand :=
    if env.postCommand = "" then env.globalPostCommand else env.postCommand
  if postCommand = "" then (.ok, tr)
  else (.ok, tr ++ [.hook])

/-- The `!certDownloaded` block of `ProcessDomain` (steps 2 and 3 of the
pipeline): renewal decision, issuance, validation loop, download, save,
post hook.  `saveIdx` is the number of `SaveCertificate` calls already
made. -/
def processRenewal (env : PDEnv) (domain : String) (renewDays : Int)
    (tr : List Ev) (saveIdx : Nat) : PDOutcome × List Ev :=
  let nr := NeedRenew env.probe env.now domain renewDays
  let tr := tr ++ [Ev.needRenew]
  if nr.1 = false then (.ok, tr)
  else
    match env.applyRes with
    | .error _ => (.applyErr, tr ++ [.applyCert domain])
    | .ok orderID =>
      let tr := tr ++ [Ev.applyCert domain]
      let r := waitForDNSValidation env.loopEnv domain orderID
      let tr := tr ++ r.2.trace
      match r.1 with
      | .success =>
        if env.downloadOk then
          if env.saveOk saveIdx then
            postHookStep env (tr ++ [.download orderID, .save domain])
          else (.saveErr, tr ++ [.download orderID, .save domain])
        else (.downloadErr, tr ++ [.download orderID])
      | e => (.validationErr e, tr)

/-- `Manager.ProcessDomain` from manager.go.  Step 1 looks for a reusable
issued certificate; when found it is fetched by certificate id and saved,
and only if both succeed is issuance skipped (`certDownloaded`); any
failure there is logged and the run falls through to the renewal path. -/
def ProcessDomain (env : PDEnv) (domain : String) (renewDays : Int) :
    PDOutcome × List Ev :=
  if ¬ env.providersOk then (.providersErr, [])
  else
    let tr := [Ev.findValid]
    match env.findValid with
    | .ok (some info) =>
      let tr := tr ++ [Ev.getDetail info.certID]
      if env.getDetailOk then
        let tr := tr ++ [Ev.save domain]
        if env.saveOk 0 then postHookStep env tr
        else processRenewal env domain renewDays tr 1
      else processRenewal env domain renewDays tr 0
    | _ => processRenewal env domain renewDays tr 0

/-! ### File storage (`SaveCertificate`) -/

/-- `provider.Certificate`: the PEM triple. -/
structure Certificate where
  certificate : String
  privateKey : String
  chain : String
  deriving Repr, DecidableEq

/-- Filesystem actions `SaveCertificate` performs. -/
inductive FileOp
  | mkdirAll (path : String)
  | writeFile (path : String) (content : String)
  deriving Repr, DecidableEq

/-- Filesystem oracle: whether `MkdirAll` succeeds and whether a
`WriteFile` of the given path succeeds. -/
structure FSEnv where
  mkdirOk : Bool
  writeOk : String → Bool

/-- `FileStorage.SaveCertificate`: make the per-domain directory, write
cert.pem (both fatal on failure), write key.pem only when the private key
is non-empty (fatal on failure), then write fullchain.pem — defaulting the
chain to the leaf — whose failure is only logged.  Returns the error
message, if any, and the attempted filesystem actions. -/
def SaveCertificate (fs : FSEnv) (baseDir domain : String) (cert : Certificate) :
    Option String × List FileOp :=
  let outputDir := baseDir ++ "/" ++ domain
  if ¬ fs.mkdirOk then (some "创建目录失败", [.mkdirAll outputDir])
  else
    let ops := [FileOp.mkdirAll outputDir]
    let certPath := outputDir ++ "/cert.pem"
    let ops := ops ++ [FileOp.writeFile certPath cert.certificate]
    if ¬ fs.writeOk certPath then (some "保存证书失败", ops)
    else
      let keyPath := outputDir ++ "/key.pem"
      let afterKey : Option (List FileOp) :=
        if cert.privateKey = "" then some ops
        else
          let ops := ops ++ [FileOp.writeFile keyPath cert.privateKey]
          if ¬ fs.writeOk keyPath then none else some ops
      match afterKey with
      | none => (some "保存私钥失败", ops ++ [FileOp.writeFile keyPath cert.privateKey])
      | some ops =>
        let chain := if cert.chain = "" then cert.certificate else cert.chain
        let fullchainPath := outputDir ++ "/fullchain.pem"
        let ops := ops ++ [FileOp.writeFile fullchainPath chain]
        (none, ops)

/-! ### Concrete environments used to instantiate the theorems -/

/-- A `domain_verify` status carrying challenge data. -/
def dvStatus (label value : String) : CertStatus :=
  { status := "domain_verify", recordDomain := label, recordType := "TXT",
    recordValue := value }

/-- A status with no challenge data. -/
def plainStatus (s : String) : CertStatus :=
  { status := s, recordDomain := "", recordType := "", recordValue := "" }

/-- Cancellation never fires. -/
def noCancel : Nat → Bool := fun _ => false

/-- Every DNS write succeeds. -/
def allDnsOk : Nat → Bool := fun _ => true

/-- Every CA poll fails. -/
def seqAllErr : Nat → Except Unit CertStatus := fun _ => .error ()

/-- Poll sequence of the resume scenario:
[domain_verify(A), domain_verify(A), process, certificate]. -/
def seqResume : Nat → Except Unit CertStatus := fun n =>
  match n with
  | 0 => .ok (dvStatus "_dnsauth.example.com" "token-1")
  | 1 => .ok (dvStatus "_dnsauth.example.com" "token-1")
  | 2 => .ok (plainStatus "process")
  | _ => .ok (plainStatus "certificate")

/-- Poll sequence [domain_verify(A), domain_verify(B), certificate] with
two different labels. -/
def seqTwoLabels : Nat → Except Unit CertStatus := fun n =>
  match n with
  | 0 => .ok (dvStatus "_dnsauth.example.com" "token-1")
  | 1 => .ok (dvStatus "_acme.example.com" "token-2")
  | _ => .ok (plainStatus "certificate")

/-- The CA answers `process` forever. -/
def seqProcess : Nat → Except Unit CertStatus := fun _ => .ok (plainStatus "process")

/-- The CA answers `certificate` immediately. -/
def seqCert : Nat → Except Unit CertStatus := fun _ => .ok (plainStatus "certificate")

/-- Loop oracles where every poll fails. -/
def errLoopEnv : LoopEnv :=
  { polls := seqAllErr, dnsOk := allDnsOk, cancel := noCancel }

/-- Loop oracles for the two-label sequence. -/
def twoLabelsEnv : LoopEnv :=
  { polls := seqTwoLabels, dnsOk := allDnsOk, cancel := noCancel }

/-- Loop oracles where the CA never leaves `process`. -/
def processEnv : LoopEnv :=
  { polls := seqProcess, dnsOk := allDnsOk, cancel := noCancel }

/-- Loop oracles where the CA answers an unknown status forever. -/
def pendingEnv : LoopEnv :=
  { polls := fun _ => .ok (plainStatus "pending"), dnsOk := allDnsOk,
    cancel := noCancel }

/-- Loop oracles whose cancellation signal is already fired. -/
def cancelEnv : LoopEnv :=
  { polls := seqCert, dnsOk := allDnsOk, cancel := fun _ => true }

/-- Resume run whose order is already in state `certificate`. -/
def certRunEnv : RunEnv :=
  { polls := seqCert, dnsOk := allDnsOk, cancel := noCancel,
    downloadOk := true, saveOk := true }

/-- Resume run over `seqResume` with successful download and save. -/
def resumeRunEnv : RunEnv :=
  { polls := seqResume, dnsOk := allDnsOk, cancel := noCancel,
    downloadOk := true, saveOk := true }

/-- Uninterrupted pipeline run over `seqResume`: nothing reusable, a
failing probe forces renewal, issuance yields order-1, download and save
succeed, no post command. -/
def resumePDEnv : PDEnv :=
  { providersOk := true, findValid := .ok none, getDetailOk := true,
    probe := none, now := 0, applyRes := .ok "order-1",
    polls := seqResume, dnsOk := allDnsOk, cancel := noCancel,
    downloadOk := true, saveOk := fun _ => true,
    postCommand := "", globalPostCommand := "" }

/-- Pipeline run that finds a reusable certificate `cert-42`. -/
def reusePDEnv : PDEnv :=
  { providersOk := true, findValid := .ok (some { certID := "cert-42", notAfter := 2400 }),
    getDetailOk := true,
    probe := none, now := 0, applyRes := .ok "order-9",
    polls := seqCert, dnsOk := allDnsOk, cancel := noCancel,
    downloadOk := true, saveOk := fun _ => true,
    postCommand := "", globalPostCommand := "" }

/-- Filesystem where only the fullchain.pem write fails. -/
def chainFailFS : FSEnv :=
  { mkdirOk := true,
    writeOk := fun p => ! (p == "/certs/example.com/fullchain.pem") }

/-- Certificate material without a private key. -/
def keylessCert : Certificate :=
  { certificate := "C", privateKey := "", chain := "" }

/-! ## Helper lemmas -/

/-- A string starting with the two wildcard characters is the wildcard
prefix followed by the rest of its characters. -/
theorem eq_star_append_of_isPrefixOf {c : String}
    (hp : ("*.".data).isPrefixOf c.data = true) :
    c = "*." ++ String.mk (c.data.drop 2) := by
  obtain ⟨r, hr⟩ := List.isPrefixOf_iff_prefix.mp hp
  apply String.ext
  rw [String.data_append, ← hr]
  rfl

/-- Dropping the two wildcard characters from `"*." ++ X` gives back `X`. -/
theorem drop_two_star_append (X : String) :
    String.mk (("*." ++ X).data.drop 2) = X := by
  apply String.ext
  rw [String.data_append]
  rfl

/-- `"*." ++ X` starts with the wildcard prefix. -/
theorem isPrefixOf_star_append (X : String) :
    ("*.".data).isPrefixOf (("*." ++ X).data) = true := by
  apply List.isPrefixOf_iff_prefix.mpr
  rw [String.data_append]
  exact ⟨X.data, rfl⟩

/-- Exhaustive case analysis of the status dispatch: exactly one of the
eight branches of the `switch` applies, with the stated result. -/
theorem handleStatus_cases (env : LoopEnv) (domain : String) (s : CertStatus)
    (st : LoopState) :
    (s.status = "domain_verify" ∧ (s.recordDomain = "" ∨ s.recordValue = "") ∧
      handleStatus env domain s st =
        .next { st with trace := st.trace ++ [.sleep 10] }) ∨
    (s.status = "domain_verify" ∧ ¬(s.recordDomain = "" ∨ s.recordValue = "") ∧
      (¬ st.dnsRecordAdded ∨ ¬ st.lastRecordDomain = s.recordDomain) ∧
      env.dnsOk st.dnsIdx = true ∧
      handleStatus env domain s st = .next
        { st with dnsIdx := st.dnsIdx + 1, dnsRecordAdded := true,
                  lastRecordDomain := s.recordDomain,
                  trace := st.trace ++
                    [.addRecord domain s.recordDomain s.recordType s.recordValue]
                    ++ [.sleep 20] }) ∨
    (s.status = "domain_verify" ∧ ¬(s.recordDomain = "" ∨ s.recordValue = "") ∧
      (¬ st.dnsRecordAdded ∨ ¬ st.lastRecordDomain = s.recordDomain) ∧
      env.dnsOk st.dnsIdx = false ∧
      handleStatus env domain s st = .next
        { st with dnsIdx := st.dnsIdx + 1,
                  trace := st.trace ++
                    [.addRecord domain s.recordDomain s.recordType s.recordValue]
                    ++ [.sleep 10] }) ∨
    (s.status = "domain_verify" ∧ ¬(s.recordDomain = "" ∨ s.recordValue = "") ∧
      st.dnsRecordAdded = true ∧ st.lastRecordDomain = s.recordDomain ∧
      handleStatus env domain s st =
        .next { st with trace := st.trace ++ [.sleep 20] }) ∨
    (s.status = "process" ∧
      handleStatus env domain s st =
        .next { st with trace := st.trace ++ [.sleep 20] }) ∨
    (s.status = "certificate" ∧ handleStatus env domain s st = .exit .success st) ∨
    (s.status = "failed" ∧ handleStatus env domain s st = .exit .orderFailed st) ∨
    (s.status ≠ "domain_verify" ∧ s.status ≠ "process" ∧
      s.status ≠ "certificate" ∧ s.status ≠ "failed" ∧
      handleStatus env domain s st =
        .next { st with trace := st.trace ++ [.sleep 15] }) := by
  by_cases h1 : s.status = "domain_verify"
  · by_cases h2 : s.recordDomain = "" ∨ s.recordValue = ""
    · refine Or.inl ⟨h1, h2, ?_⟩
      simp [handleStatus, h1, h2]
    · by_cases h3 : ¬ st.dnsRecordAdded ∨ ¬ st.lastRecordDomain = s.recordDomain
      · have h3i : st.dnsRecordAdded = true → ¬ st.lastRecordDomain = s.recordDomain :=
          fun hadd => h3.resolve_left (not_not_intro hadd)
        have h3f : st.dnsRecordAdded = false ∨ ¬ st.lastRecordDomain = s.recordDomain :=
          h3.imp (fun h => by simpa using h) id
        by_cases h4 : env.dnsOk st.dnsIdx = true
        · refine Or.inr (Or.inl ⟨h1, h2, h3, h4, ?_⟩)
          simp [handleStatus, h1, h2, h3i, h3f, h4]
        · have h4f : env.dnsOk st.dnsIdx = false := by
            simpa using h4
          refine Or.inr (Or.inr (Or.inl ⟨h1, h2, h3, h4f, ?_⟩))
          simp [handleStatus, h1, h2, h3i, h3f, h4f]
      · have h3n := h3
        rw [not_or, not_not, not_not] at h3n
        refine Or.inr (Or.inr (Or.inr (Or.inl ⟨h1, h2, h3n.1, h3n.2, ?_⟩)))
        simp [handleStatus, h1, h2, h3n.1, h3n.2]
  · by_cases h5 : s.status = "process"
    · refine Or.inr (Or.inr (Or.inr (Or.inr (Or.inl ⟨h5, ?_⟩))))
      simp [handleStatus, h1, h5]
    · by_cases h6 : s.status = "certificate"
      · refine Or.inr (Or.inr (Or.inr (Or.inr (Or.inr (Or.inl ⟨h6, ?_⟩)))))
        simp [handleStatus, h1, h5, h6]
      · by_cases h7 : s.status = "failed"
        · refine Or.inr (Or.inr (Or.inr (Or.inr (Or.inr (Or.inr (Or.inl ⟨h7, ?_⟩))))))
          simp [handleStatus, h1, h5, h6, h7]
        · refine Or.inr (Or.inr (Or.inr (Or.inr (Or.inr (Or.inr (Or.inr
            ⟨h1, h5, h6, h7, ?_⟩))))))
          simp [handleStatus, h1, h5, h6, h7]

/-- Exhaustive case analysis of one loop iteration: cancellation, a failed
poll at or under the consecutive-error limit, or a successful poll handed
to the status dispatch with the counter reset to zero. -/
theorem loopStep_cases (env : LoopEnv) (domain : String) (i : Nat) (st : LoopState) :
    (env.cancel i = true ∧ loopStep env domain i st = .exit .cancelled st) ∨
    (env.cancel i = false ∧ env.polls st.pollIdx = .error () ∧
      st.consecutiveErrors + 1 ≥ 3 ∧
      loopStep env domain i st = .exit .pollErrors
        { st with pollIdx := st.pollIdx + 1, trace := st.trace ++ [.poll],
                  consecutiveErrors := st.consecutiveErrors + 1 }) ∨
    (env.cancel i = false ∧ env.polls st.pollIdx = .error () ∧
      ¬ st.consecutiveErrors + 1 ≥ 3 ∧
      loopStep env domain i st = .next
        { st with pollIdx := st.pollIdx + 1,
                  trace := st.trace ++ [.poll] ++ [.sleep 10],
                  consecutiveErrors := st.consecutiveErrors + 1 }) ∨
    (∃ s, env.cancel i = false ∧ env.polls st.pollIdx = .ok s ∧
      loopStep env domain i st = handleStatus env domain s
        { st with pollIdx := st.pollIdx + 1, trace := st.trace ++ [.poll],
                  consecutiveErrors := 0 }) := by
  by_cases hcan : env.cancel i = true
  · refine Or.inl ⟨hcan, ?_⟩
    simp [loopStep, hcan]
  · have hcan' : env.cancel i = false := by simpa using hcan
    cases hp : env.polls st.pollIdx with
    | error u =>
      cases u
      by_cases h3 : st.consecutiveErrors + 1 ≥ 3
      · refine Or.inr (Or.inl ⟨hcan', rfl, h3, ?_⟩)
        simp [loopStep, hcan', hp, h3]
      · refine Or.inr (Or.inr (Or.inl ⟨hcan', rfl, h3, ?_⟩))
        simp [loopStep, hcan', hp, h3]
    | ok s =>
      refine Or.inr (Or.inr (Or.inr ⟨s, hcan', rfl, ?_⟩))
      simp [loopStep, hcan', hp]

/-- A `.next` result of the status dispatch keeps the poll position and
the consecutive-error counter. -/
theorem handleStatus_next_fields (env : LoopEnv) (domain : String) (s : CertStatus)
    (st st2 : LoopState) (h : handleStatus env domain s st = .next st2) :
    st2.pollIdx = st.pollIdx ∧ st2.consecutiveErrors = st.consecutiveErrors := by
  rcases handleStatus_cases env domain s st with
    ⟨-, -, hh⟩ | ⟨-, -, -, -, hh⟩ | ⟨-, -, -, -, hh⟩ | ⟨-, -, -, -, hh⟩ |
    ⟨-, hh⟩ | ⟨-, hh⟩ | ⟨-, hh⟩ | ⟨-, -, -, -, hh⟩ <;>
    rw [hh] at h <;>
    cases h <;>
    exact ⟨rfl, rfl⟩

/-- An `.exit` result of the status dispatch keeps the state unchanged and
happens only on the `certificate` or `failed` status. -/
theorem handleStatus_exit_state (env : LoopEnv) (domain : String) (s : CertStatus)
    (st : LoopState) (e : LoopExit) (st2 : LoopState)
    (h : handleStatus env domain s st = .exit e st2) :
    st2 = st ∧ (e = .success ∧ s.status = "certificate" ∨
                e = .orderFailed ∧ s.status = "failed") := by
  rcases handleStatus_cases env domain s st with
    ⟨-, -, hh⟩ | ⟨-, -, -, -, hh⟩ | ⟨-, -, -, -, hh⟩ | ⟨-, -, -, -, hh⟩ |
    ⟨-, hh⟩ | ⟨hs, hh⟩ | ⟨hs, hh⟩ | ⟨-, -, -, -, hh⟩ <;>
    rw [hh] at h <;>
    cases h <;>
    first
      | exact ⟨rfl, Or.inl ⟨rfl, hs⟩⟩
      | exact ⟨rfl, Or.inr ⟨rfl, hs⟩⟩

/-- One loop iteration aborts only through cancellation, the
consecutive-error limit, the `certificate` status or the `failed`
status. -/
theorem loopStep_exit_kinds (env : LoopEnv) (domain : String) (i : Nat)
    (st : LoopState) (e : LoopExit) (st2 : LoopState)
    (h : loopStep env domain i st = .exit e st2) :
    (e = .cancelled ∧ env.cancel i = true) ∨
    (e = .pollErrors ∧ env.polls st.pollIdx = .error () ∧
      st.consecutiveErrors + 1 ≥ 3) ∨
    (∃ s, env.polls st.pollIdx = .ok s ∧
      (e = .success ∧ s.status = "certificate" ∨
       e = .orderFailed ∧ s.status = "failed")) := by
  rcases loopStep_cases env domain i st with
    ⟨hcan, hh⟩ | ⟨-, hp, h3, hh⟩ | ⟨-, -, -, hh⟩ | ⟨s, -, hp, hh⟩
  · rw [hh] at h
    cases h
    exact Or.inl ⟨rfl, hcan⟩
  · rw [hh] at h
    cases h
    exact Or.inr (Or.inl ⟨rfl, hp, h3⟩)
  · rw [hh] at h
    cases h
  · rw [hh] at h
    rcases handleStatus_exit_state _ _ _ _ _ _ h with ⟨-, hk⟩
    exact Or.inr (Or.inr ⟨s, hp, hk⟩)

/-- One loop iteration advances the poll position by at most one. -/
theorem loopStep_pollIdx_le (env : LoopEnv) (domain : String) (i : Nat)
    (st : LoopState) :
    (∀ st2, loopStep env domain i st = .next st2 → st2.pollIdx ≤ st.pollIdx + 1) ∧
    (∀ e st2, loopStep env domain i st = .exit e st2 → st2.pollIdx ≤ st.pollIdx + 1) := by
  rcases loopStep_cases env domain i st with
    ⟨-, hh⟩ | ⟨-, -, -, hh⟩ | ⟨-, -, -, hh⟩ | ⟨s, -, -, hh⟩ <;>
    refine ⟨fun st2 h => ?_, fun e st2 h => ?_⟩ <;>
    rw [hh] at h
  · cases h
  · cases h
    exact Nat.le_succ _
  · cases h
  · cases h
    exact Nat.le_refl _
  · cases h
    exact Nat.le_refl _
  · cases h
  · have := (handleStatus_next_fields _ _ _ _ _ h).1
    simp only [this]
    exact Nat.le_refl _
  · have := (handleStatus_exit_state _ _ _ _ _ _ h).1
    subst this
    simp

/-- A state predicate preserved by every loop iteration holds of the final
state of the loop. -/
theorem loopAux_inv (env : LoopEnv) (domain orderID : String)
    (P : LoopState → Prop)
    (hnext : ∀ i st st2, P st → loopStep env domain i st = .next st2 → P st2)
    (hexit : ∀ i e st st2, P st → loopStep env domain i st = .exit e st2 → P st2) :
    ∀ (fuel i : Nat) (st : LoopState),
      P st → P (loopAux env domain orderID fuel i st).2 := by
  intro fuel
  induction fuel with
  | zero =>
    intro i st h
    simpa [loopAux] using h
  | succ n ih =>
    intro i st h
    simp only [loopAux]
    cases hs : loopStep env domain i st with
    | exit e st2 => simpa using hexit i e st st2 h hs
    | next st2 => simpa using ih (i + 1) st2 (hnext i st st2 h hs)

/-- The loop makes at most `fuel` polls beyond the starting position. -/
theorem loopAux_pollIdx_le (env : LoopEnv) (domain orderID : String) :
    ∀ (fuel i : Nat) (st : LoopState),
      (loopAux env domain orderID fuel i st).2.pollIdx ≤ st.pollIdx + fuel := by
  intro fuel
  induction fuel with
  | zero =>
    intro i st
    simp [loopAux]
  | succ n ih =>
    intro i st
    simp only [loopAux]
    cases hs : loopStep env domain i st with
    | exit e st2 =>
      have h1 := (loopStep_pollIdx_le env domain i st).2 e st2 hs
      simpa using Nat.le_trans h1 (by omega)
    | next st2 =>
      have h1 := (loopStep_pollIdx_le env domain i st).1 st2 hs
      have h2 := ih (i + 1) st2
      simpa using Nat.le_trans h2 (by omega)

/-- The loop returns through one of its five exits; the timeout exit
carries the order id it was started with. -/
theorem loopAux_outcome (env : LoopEnv) (domain orderID : String) :
    ∀ (fuel i : Nat) (st : LoopState),
      (loopAux env domain orderID fuel i st).1 = .success ∨
      (loopAux env domain orderID fuel i st).1 = .cancelled ∨
      (loopAux env domain orderID fuel i st).1 = .pollErrors ∨
      (loopAux env domain orderID fuel i st).1 = .orderFailed ∨
      (loopAux env domain orderID fuel i st).1 = .timeout orderID := by
  intro fuel
  induction fuel with
  | zero =>
    intro i st
    simp [loopAux]
  | succ n ih =>
    intro i st
    simp only [loopAux]
    cases hs : loopStep env domain i st with
    | exit e st2 =>
      rcases loopStep_exit_kinds env domain i st e st2 hs with
        ⟨he, -⟩ | ⟨he, -, -⟩ | ⟨s, -, ⟨he, -⟩ | ⟨he, -⟩⟩ <;> subst he <;> simp
    | next st2 => simpa using ih (i + 1) st2

/-! ## Claims -/

/-- Claim C2 (counterexample to the claim as stated): the claim says
`MatchDomain "*.example.com" "api.sub.example.com"` is `false`, but the
code returns `true`: the main domain of `api.sub.example.com` is
`example.com`, which equals the wildcard body. -/
theorem c2_counterexample :
    MatchDomain "*.example.com" "api.sub.example.com" = true := by decide

/-- Claim C2 (amended): wildcard matching returns `true` for
`api.example.com` and also for `api.sub.example.com`; in general
`MatchDomain certName target` is `true` exactly when `certName = target`,
or `certName` has the form `*.X` with `X` the main domain (last two
labels) of `target`. -/
theorem c2_matchDomain_spec :
    MatchDomain "*.example.com" "api.example.com" = true ∧
    MatchDomain "*.example.com" "api.sub.example.com" = true ∧
    ∀ certName target, MatchDomain certName target = true ↔
      certName = target ∨
      ∃ X, certName = "*." ++ X ∧ X = ExtractMainDomain target := by
  refine ⟨by decide, by decide, ?_⟩
  intro c t
  by_cases hct : c = t
  · simp [MatchDomain, hct]
  · by_cases hp : ("*.".data).isPrefixOf c.data = true
    · have hc := eq_star_append_of_isPrefixOf hp
      simp only [MatchDomain, if_neg hct, if_pos hp, decide_eq_true_eq]
      constructor
      · intro h
        exact Or.inr ⟨String.mk (c.data.drop 2), hc, h⟩
      · rintro (h | ⟨X, hX, hXe⟩)
        · exact absurd h hct
        · rw [hX, drop_two_star_append, hXe]
    · simp only [MatchDomain, if_neg hct, if_neg hp, Bool.false_eq_true,
        false_iff, not_or]
      refine ⟨hct, ?_⟩
      rintro ⟨X, hX, -⟩
      exact hp (hX ▸ isPrefixOf_star_append X)

/-- Claim C3: every poll error increments the consecutive-failure counter
and at three the loop aborts without a further poll; below three it backs
off 10s and retries with the incremented counter; any successful poll
resets the counter to zero; the all-error run aborts with exactly three
polls made and no fourth attempt. -/
theorem c3_consecutive_failures :
    (∀ (env : LoopEnv) (domain : String) (i : Nat) (st : LoopState),
      env.cancel i = false → env.polls st.pollIdx = .error () →
      (st.consecutiveErrors + 1 ≥ 3 →
        loopStep env domain i st = .exit .pollErrors
          { st with pollIdx := st.pollIdx + 1, trace := st.trace ++ [.poll],
                    consecutiveErrors := st.consecutiveErrors + 1 }) ∧
      (st.consecutiveErrors + 1 < 3 →
        loopStep env domain i st = .next
          { st with pollIdx := st.pollIdx + 1,
                    trace := st.trace ++ [.poll] ++ [.sleep 10],
                    consecutiveErrors := st.consecutiveErrors + 1 })) ∧
    (∀ (env : LoopEnv) (domain : String) (i : Nat) (st : LoopState) (s : CertStatus),
      env.cancel i = false → env.polls st.pollIdx = .ok s →
      (∀ st2, loopStep env domain i st = .next st2 → st2.consecutiveErrors = 0) ∧
      (∀ e st2, loopStep env domain i st = .exit e st2 → st2.consecutiveErrors = 0)) ∧
    waitForDNSValidation errLoopEnv "example.com" "order-1" =
      (.pollErrors,
       { dnsRecordAdded := false, lastRecordDomain := "", consecutiveErrors := 3,
         pollIdx := 3, dnsIdx := 0,
         trace := [.poll, .sleep 10, .poll, .sleep 10, .poll] }) := by
  refine ⟨?_, ?_, by decide⟩
  · intro env domain i st hcan hperr
    rcases loopStep_cases env domain i st with
      ⟨hc, -⟩ | ⟨-, -, h3, hh⟩ | ⟨-, -, h3n, hh⟩ | ⟨s, -, hp2, -⟩
    · rw [hcan] at hc
      cases hc
    · exact ⟨fun _ => hh, fun hlt => absurd h3 (by omega)⟩
    · exact ⟨fun hge => absurd hge h3n, fun _ => hh⟩
    · rw [hperr] at hp2
      cases hp2
  · intro env domain i st s hcan hok
    rcases loopStep_cases env domain i st with
      ⟨hc, -⟩ | ⟨-, hp, -, -⟩ | ⟨-, hp, -, -⟩ | ⟨s2, -, hok2, hh⟩
    · rw [hcan] at hc
      cases hc
    · rw [hok] at hp
      cases hp
    · rw [hok] at hp
      cases hp
    · rw [hok] at hok2
      cases hok2
      constructor
      · intro st2 h
        rw [hh] at h
        simpa using (handleStatus_next_fields _ _ _ _ _ h).2
      · intro e st2 h
        rw [hh] at h
        have := (handleStatus_exit_state _ _ _ _ _ _ h).1
        subst this
        simp

/-- Claim C3 witness: at two previous failures a third poll error aborts;
at zero previous failures a poll error retries with counter one; after a
successful `process` poll the counter is zero. -/
theorem c3_witness :
    loopStep errLoopEnv "example.com" 0 { initLoopState with consecutiveErrors := 2 } =
      .exit .pollErrors
        { initLoopState with consecutiveErrors := 3, pollIdx := 1,
                             trace := [Ev.poll] } ∧
    loopStep errLoopEnv "example.com" 0 initLoopState =
      .next { initLoopState with consecutiveErrors := 1, pollIdx := 1,
                                 trace := [Ev.poll, Ev.sleep 10] } ∧
    LoopState.consecutiveErrors
      { dnsRecordAdded := false, lastRecordDomain := "", consecutiveErrors := 0,
        pollIdx := 1, dnsIdx := 0, trace := [Ev.poll, Ev.sleep 20] } = 0 :=
  ⟨(c3_consecutive_failures.1 errLoopEnv "example.com" 0
      { initLoopState with consecutiveErrors := 2 } rfl rfl).1 (by decide),
   (c3_consecutive_failures.1 errLoopEnv "example.com" 0 initLoopState rfl rfl).2
      (by decide),
   (c3_consecutive_failures.2.1 processEnv "example.com" 0 initLoopState
      (plainStatus "process") rfl rfl).1
      { dnsRecordAdded := false, lastRecordDomain := "", consecutiveErrors := 0,
        pollIdx := 1, dnsIdx := 0, trace := [Ev.poll, Ev.sleep 20] } (by decide)⟩

/-- Claim C6: the validation loop makes at most 60 polls; it can only
return success, cancellation, the consecutive-error abort, the failed
order abort, or the timeout carrying the order id; the always-`process`
run times out with the order id after exactly 60 polls. -/
theorem c6_sixty_iterations_timeout :
    (∀ (env : LoopEnv) (domain orderID : String),
      (waitForDNSValidation env domain orderID).2.pollIdx ≤ 60) ∧
    (∀ (env : LoopEnv) (domain orderID : String),
      (waitForDNSValidation env domain orderID).1 = .success ∨
      (waitForDNSValidation env domain orderID).1 = .cancelled ∨
      (waitForDNSValidation env domain orderID).1 = .pollErrors ∨
      (waitForDNSValidation env domain orderID).1 = .orderFailed ∨
      (waitForDNSValidation env domain orderID).1 = .timeout orderID) ∧
    (waitForDNSValidation processEnv "example.com" "order-1").1 = .timeout "order-1" ∧
    (waitForDNSValidation processEnv "example.com" "order-1").2.pollIdx = 60 := by
  refine ⟨?_, ?_, by decide, by decide⟩
  · intro env domain orderID
    simpa [waitForDNSValidation, initLoopState] using
      loopAux_pollIdx_le env domain orderID 60 0 initLoopState
  · intro env domain orderID
    exact loopAux_outcome env domain orderID 60 0 initLoopState

/-- Claim C8: a poll status outside the four known ones neither succeeds
nor fails the run: the iteration backs off 15s and continues; an exit of
one iteration happens only through cancellation, the consecutive-error
limit, `certificate` or `failed`; the loop as a whole returns only
through those exits or the timeout. -/
theorem c8_unknown_status_transient :
    (∀ (env : LoopEnv) (domain : String) (i : Nat) (st : LoopState) (s : CertStatus),
      env.cancel i = false → env.polls st.pollIdx = .ok s →
      s.status ≠ "domain_verify" → s.status ≠ "process" →
      s.status ≠ "certificate" → s.status ≠ "failed" →
      loopStep env domain i st = .next
        { st with pollIdx := st.pollIdx + 1, consecutiveErrors := 0,
                  trace := st.trace ++ [.poll] ++ [.sleep 15] }) ∧
    (∀ (env : LoopEnv) (domain : String) (i : Nat) (st : LoopState)
        (e : LoopExit) (st2 : LoopState),
      loopStep env domain i st = .exit e st2 →
      (e = .cancelled ∧ env.cancel i = true) ∨
      (e = .pollErrors ∧ env.polls st.pollIdx = .error () ∧
        st.consecutiveErrors + 1 ≥ 3) ∨
      (∃ s, env.polls st.pollIdx = .ok s ∧
        (e = .success ∧ s.status = "certificate" ∨
         e = .orderFailed ∧ s.status = "failed"))) ∧
    (∀ (env : LoopEnv) (domain orderID : String),
      (waitForDNSValidation env domain orderID).1 = .success ∨
      (waitForDNSValidation env domain orderID).1 = .cancelled ∨
      (waitForDNSValidation env domain orderID).1 = .pollErrors ∨
      (waitForDNSValidation env domain orderID).1 = .orderFailed ∨
      (waitForDNSValidation env domain orderID).1 = .timeout orderID) := by
  refine ⟨?_, ?_, ?_⟩
  · intro env domain i st s hcan hok hdv hpr hce hfa
    rcases loopStep_cases env domain i st with
      ⟨hc, -⟩ | ⟨-, hp, -, -⟩ | ⟨-, hp, -, -⟩ | ⟨s2, -, hok2, hh⟩
    · rw [hcan] at hc
      cases hc
    · rw [hok] at hp
      cases hp
    · rw [hok] at hp
      cases hp
    · rw [hok] at hok2
      cases hok2
      rcases handleStatus_cases env domain s
          { st with pollIdx := st.pollIdx + 1, trace := st.trace ++ [.poll],
                    consecutiveErrors := 0 } with
        ⟨hs, -, -⟩ | ⟨hs, -, -, -, -⟩ | ⟨hs, -, -, -, -⟩ | ⟨hs, -, -, -, -⟩ |
        ⟨hs, -⟩ | ⟨hs, -⟩ | ⟨hs, -⟩ | ⟨-, -, -, -, hb⟩
      · exact absurd hs hdv
      · exact absurd hs hdv
      · exact absurd hs hdv
      · exact absurd hs hdv
      · exact absurd hs hpr
      · exact absurd hs hce
      · exact absurd hs hfa
      · rw [hh, hb]
  · intro env domain i st e st2 h
    exact loopStep_exit_kinds env domain i st e st2 h
  · intro env domain orderID
    exact loopAux_outcome env domain orderID 60 0 initLoopState

/-- Claim C8 witness: an unknown `pending` status makes the iteration
back off 15s and continue, and a fired cancellation is one of the allowed
exit reasons. -/
theorem c8_witness :
    loopStep pendingEnv "example.com" 0 initLoopState =
      .next { initLoopState with pollIdx := 1, trace := [Ev.poll, Ev.sleep 15] } ∧
    ((LoopExit.cancelled = LoopExit.cancelled ∧ cancelEnv.cancel 0 = true) ∨
     (LoopExit.cancelled = .pollErrors ∧
       cancelEnv.polls initLoopState.pollIdx = .error () ∧
       initLoopState.consecutiveErrors + 1 ≥ 3) ∨
     (∃ s, cancelEnv.polls initLoopState.pollIdx = .ok s ∧
       (LoopExit.cancelled = .success ∧ s.status = "certificate" ∨
        LoopExit.cancelled = .orderFailed ∧ s.status = "failed"))) :=
  ⟨c8_unknown_status_transient.1 pendingEnv "example.com" 0 initLoopState
      (plainStatus "pending") rfl rfl (by decide) (by decide) (by decide) (by decide),
   c8_unknown_status_transient.2.1 cancelEnv "example.com" 0 initLoopState
      .cancelled initLoopState rfl⟩

/-- Every loop iteration only appends to the trace, and what it appends
contains no post-hook invocation and no certificate fetch. -/
theorem loopStep_trace_extend (env : LoopEnv) (domain : String) (i : Nat)
    (st : LoopState) :
    (∀ st2, loopStep env domain i st = .next st2 →
      ∃ tl, st2.trace = st.trace ++ tl ∧ Ev.hook ∉ tl ∧ fetches tl = []) ∧
    (∀ e st2, loopStep env domain i st = .exit e st2 →
      ∃ tl, st2.trace = st.trace ++ tl ∧ Ev.hook ∉ tl ∧ fetches tl = []) := by
  rcases loopStep_cases env domain i st with
    ⟨-, hh⟩ | ⟨-, -, -, hh⟩ | ⟨-, -, -, hh⟩ | ⟨s, -, -, hh⟩
  · refine ⟨fun st2 h => ?_, fun e st2 h => ?_⟩ <;> rw [hh] at h
    · cases h
    · cases h
      exact ⟨[], by simp, by simp, rfl⟩
  · refine ⟨fun st2 h => ?_, fun e st2 h => ?_⟩ <;> rw [hh] at h
    · cases h
    · cases h
      exact ⟨[Ev.poll], rfl, by simp, rfl⟩
  · refine ⟨fun st2 h => ?_, fun e st2 h => ?_⟩ <;> rw [hh] at h
    · cases h
      exact ⟨[Ev.poll, Ev.sleep 10], by simp, by simp, rfl⟩
    · cases h
  · rcases handleStatus_cases env domain s
        { st with pollIdx := st.pollIdx + 1, trace := st.trace ++ [.poll],
                  consecutiveErrors := 0 } with
      ⟨-, -, hb⟩ | ⟨-, -, -, -, hb⟩ | ⟨-, -, -, -, hb⟩ | ⟨-, -, -, -, hb⟩ |
      ⟨-, hb⟩ | ⟨-, hb⟩ | ⟨-, hb⟩ | ⟨-, -, -, -, hb⟩ <;>
      rw [hh, hb] <;>
      refine ⟨fun st2 h => ?_, fun e st2 h => ?_⟩ <;>
      cases h
    · exact ⟨[Ev.poll, Ev.sleep 10], by simp, by simp, rfl⟩
    · exact ⟨[Ev.poll,
        Ev.addRecord domain s.recordDomain s.recordType s.recordValue,
        Ev.sleep 20], by simp, by simp, rfl⟩
    · exact ⟨[Ev.poll,
        Ev.addRecord domain s.recordDomain s.recordType s.recordValue,
        Ev.sleep 10], by simp, by simp, rfl⟩
    · exact ⟨[Ev.poll, Ev.sleep 20], by simp, by simp, rfl⟩
    · exact ⟨[Ev.poll, Ev.sleep 20], by simp, by simp, rfl⟩
    · exact ⟨[Ev.poll], by simp, by simp, rfl⟩
    · exact ⟨[Ev.poll], by simp, by simp, rfl⟩
    · exact ⟨[Ev.poll, Ev.sleep 15], by simp, by simp, rfl⟩

/-- The loop never invokes the post-hook and never fetches a certificate:
its final trace is the starting trace extended by polls, DNS writes and
sleeps only. -/
theorem loopAux_no_hook_no_fetch (env : LoopEnv) (domain orderID : String) :
    ∀ (fuel i : Nat) (st : LoopState),
      (Ev.hook ∉ st.trace ∧ fetches st.trace = []) →
      Ev.hook ∉ (loopAux env domain orderID fuel i st).2.trace ∧
      fetches (loopAux env domain orderID fuel i st).2.trace = [] := by
  intro fuel i st h
  refine loopAux_inv env domain orderID
    (fun st => Ev.hook ∉ st.trace ∧ fetches st.trace = []) ?_ ?_ fuel i st h
  · intro i st st2 hP hstep
    obtain ⟨tl, htr, hhk, hft⟩ := (loopStep_trace_extend env domain i st).1 st2 hstep
    rw [htr]
    constructor
    · simp [List.mem_append, hP.1, hhk]
    · have h1 : List.filter isFetch st.trace = [] := hP.2
      have h2 : List.filter isFetch tl = [] := hft
      simp only [fetches, List.filter_append, h1, h2, List.append_nil]
  · intro i e st st2 hP hstep
    obtain ⟨tl, htr, hhk, hft⟩ := (loopStep_trace_extend env domain i st).2 e st2 hstep
    rw [htr]
    constructor
    · simp [List.mem_append, hP.1, hhk]
    · have h1 : List.filter isFetch st.trace = [] := hP.2
      have h2 : List.filter isFetch tl = [] := hft
      simp only [fetches, List.filter_append, h1, h2, List.append_nil]

/-- Claim C4: on a `domain_verify` status with empty challenge data the
iteration takes no DNS action; with challenge data `AddRecord` is skipped
when a record was already written under the same label, and invoked when
no record was written yet or the label changed; when every
`domain_verify` label of the oracle is the same and every DNS write
succeeds the whole run calls `AddRecord` at most once; the run over
[domain_verify(A), domain_verify(B)] with different labels calls it
exactly twice. -/
theorem c4_dns_upsert_policy :
    (∀ (env : LoopEnv) (domain : String) (i : Nat) (st : LoopState) (s : CertStatus),
      env.cancel i = false → env.polls st.pollIdx = .ok s →
      s.status = "domain_verify" → (s.recordDomain = "" ∨ s.recordValue = "") →
      loopStep env domain i st = .next
        { st with pollIdx := st.pollIdx + 1, consecutiveErrors := 0,
                  trace := st.trace ++ [.poll] ++ [.sleep 10] }) ∧
    (∀ (env : LoopEnv) (domain : String) (i : Nat) (st : LoopState) (s : CertStatus),
      env.cancel i = false → env.polls st.pollIdx = .ok s →
      s.status = "domain_verify" → ¬(s.recordDomain = "" ∨ s.recordValue = "") →
      st.dnsRecordAdded = true → st.lastRecordDomain = s.recordDomain →
      loopStep env domain i st = .next
        { st with pollIdx := st.pollIdx + 1, consecutiveErrors := 0,
                  trace := st.trace ++ [.poll] ++ [.sleep 20] }) ∧
    (∀ (env : LoopEnv) (domain : String) (i : Nat) (st : LoopState) (s : CertStatus),
      env.cancel i = false → env.polls st.pollIdx = .ok s →
      s.status = "domain_verify" → ¬(s.recordDomain = "" ∨ s.recordValue = "") →
      (¬ st.dnsRecordAdded ∨ ¬ st.lastRecordDomain = s.recordDomain) →
      ∃ st2, loopStep env domain i st = .next st2 ∧
        dnsWrites st2.trace = dnsWrites st.trace ++
          [.addRecord domain s.recordDomain s.recordType s.recordValue]) ∧
    (∀ (env : LoopEnv) (domain orderID L : String),
      (∀ n s, env.polls n = .ok s → s.status = "domain_verify" →
        s.recordDomain = L) →
      (∀ n, env.dnsOk n = true) →
      (dnsWrites (waitForDNSValidation env domain orderID).2.trace).length ≤ 1) ∧
    dnsWrites (waitForDNSValidation twoLabelsEnv "example.com" "order-1").2.trace =
      [.addRecord "example.com" "_dnsauth.example.com" "TXT" "token-1",
       .addRecord "example.com" "_acme.example.com" "TXT" "token-2"] := by
  refine ⟨?_, ?_, ?_, ?_, by decide⟩
  · intro env domain i st s hcan hok hs hdata
    rcases loopStep_cases env domain i st with
      ⟨hc, -⟩ | ⟨-, hp, -, -⟩ | ⟨-, hp, -, -⟩ | ⟨s2, -, hok2, hh⟩
    · rw [hcan] at hc
      cases hc
    · rw [hok] at hp
      cases hp
    · rw [hok] at hp
      cases hp
    · rw [hok] at hok2
      cases hok2
      rcases handleStatus_cases env domain s
          { st with pollIdx := st.pollIdx + 1, trace := st.trace ++ [.poll],
                    consecutiveErrors := 0 } with
        ⟨-, -, hb⟩ | ⟨-, hd, -, -, -⟩ | ⟨-, hd, -, -, -⟩ | ⟨-, hd, -, -, -⟩ |
        ⟨hs2, -⟩ | ⟨hs2, -⟩ | ⟨hs2, -⟩ | ⟨hs2, -, -, -, -⟩
      · rw [hh, hb]
      · exact absurd hdata hd
      · exact absurd hdata hd
      · exact absurd hdata hd
      · simp [hs] at hs2
      · simp [hs] at hs2
      · simp [hs] at hs2
      · exact absurd hs hs2
  · intro env domain i st s hcan hok hs hdata hadd hlast
    rcases loopStep_cases env domain i st with
      ⟨hc, -⟩ | ⟨-, hp, -, -⟩ | ⟨-, hp, -, -⟩ | ⟨s2, -, hok2, hh⟩
    · rw [hcan] at hc
      cases hc
    · rw [hok] at hp
      cases hp
    · rw [hok] at hp
      cases hp
    · rw [hok] at hok2
      cases hok2
      rcases handleStatus_cases env domain s
          { st with pollIdx := st.pollIdx + 1, trace := st.trace ++ [.poll],
                    consecutiveErrors := 0 } with
        ⟨-, hd, -⟩ | ⟨-, -, hcond, -, -⟩ | ⟨-, -, hcond, -, -⟩ | ⟨-, -, -, -, hb⟩ |
        ⟨hs2, -⟩ | ⟨hs2, -⟩ | ⟨hs2, -⟩ | ⟨hs2, -, -, -, -⟩
      · exact absurd hd hdata
      · exact absurd hlast (hcond.elim (fun h => absurd hadd h) fun h => h)
      · exact absurd hlast (hcond.elim (fun h => absurd hadd h) fun h => h)
      · rw [hh, hb]
      · simp [hs] at hs2
      · simp [hs] at hs2
      · simp [hs] at hs2
      · exact absurd hs hs2
  · intro env domain i st s hcan hok hs hdata hcond
    rcases loopStep_cases env domain i st with
      ⟨hc, -⟩ | ⟨-, hp, -, -⟩ | ⟨-, hp, -, -⟩ | ⟨s2, -, hok2, hh⟩
    · rw [hcan] at hc
      cases hc
    · rw [hok] at hp
      cases hp
    · rw [hok] at hp
      cases hp
    · rw [hok] at hok2
      cases hok2
      rcases handleStatus_cases env domain s
          { st with pollIdx := st.pollIdx + 1, trace := st.trace ++ [.poll],
                    consecutiveErrors := 0 } with
        ⟨-, hd, -⟩ | ⟨-, -, -, -, hb⟩ | ⟨-, -, -, -, hb⟩ | ⟨-, -, hadd2, hlast2, -⟩ |
        ⟨hs2, -⟩ | ⟨hs2, -⟩ | ⟨hs2, -⟩ | ⟨hs2, -, -, -, -⟩
      · exact absurd hd hdata
      · refine ⟨_, by rw [hh, hb], ?_⟩
        simp [dnsWrites, isDNSWrite, List.filter_append]
      · refine ⟨_, by rw [hh, hb], ?_⟩
        simp [dnsWrites, isDNSWrite, List.filter_append]
      · exact absurd hlast2 (hcond.elim (fun h => absurd hadd2 h) fun h => h)
      · simp [hs] at hs2
      · simp [hs] at hs2
      · simp [hs] at hs2
      · exact absurd hs hs2
  · intro env domain orderID L hL hdns
    have hinv := loopAux_inv env domain orderID
      (fun st =>
        st.dnsRecordAdded = false ∧ (dnsWrites st.trace).length = 0 ∨
        st.dnsRecordAdded = true ∧ st.lastRecordDomain = L ∧
          (dnsWrites st.trace).length = 1)
      ?hnext ?hexit 60 0 initLoopState ?hinit
    case hinit =>
      exact Or.inl ⟨rfl, rfl⟩
    case hnext =>
      intro i st st2 hP h
      rcases loopStep_cases env domain i st with
        ⟨-, hh⟩ | ⟨-, -, -, hh⟩ | ⟨-, -, -, hh⟩ | ⟨s, -, hok, hh⟩
      · rw [hh] at h
        cases h
      · rw [hh] at h
        cases h
      · rw [hh] at h
        cases h
        rcases hP with ⟨h1, h2⟩ | ⟨h1, h2, h3⟩
        · exact Or.inl ⟨h1, by
            simpa [dnsWrites, isDNSWrite, List.filter_append] using h2⟩
        · exact Or.inr ⟨h1, h2, by
            simpa [dnsWrites, isDNSWrite, List.filter_append] using h3⟩
      · rw [hh] at h
        have hlab : s.status = "domain_verify" → s.recordDomain = L :=
          fun hdv => hL st.pollIdx s hok hdv
        rcases handleStatus_cases env domain s
            { st with pollIdx := st.pollIdx + 1, trace := st.trace ++ [.poll],
                      consecutiveErrors := 0 } with
          ⟨-, -, hb⟩ | ⟨hdv, -, hcond, -, hb⟩ | ⟨-, -, -, hko, -⟩ |
          ⟨-, -, hadd2, hlast2, hb⟩ | ⟨-, hb⟩ | ⟨-, hb⟩ | ⟨-, hb⟩ | ⟨-, -, -, -, hb⟩
        · rw [hb] at h
          cases h
          rcases hP with ⟨h1, h2⟩ | ⟨h1, h2, h3⟩
          · exact Or.inl ⟨h1, by
              simpa [dnsWrites, isDNSWrite, List.filter_append] using h2⟩
          · exact Or.inr ⟨h1, h2, by
              simpa [dnsWrites, isDNSWrite, List.filter_append] using h3⟩
        · rw [hb] at h
          cases h
          rcases hP with ⟨h1, h2⟩ | ⟨h1, h2, h3⟩
          · refine Or.inr ⟨rfl, hlab hdv, ?_⟩
            simpa [dnsWrites, isDNSWrite, List.filter_append] using h2
          · exfalso
            rcases hcond with hcf | hcf
            · exact hcf h1
            · exact hcf (by rw [h2, hlab hdv])
        · rw [hdns st.dnsIdx] at hko
          cases hko
        · rw [hb] at h
          cases h
          rcases hP with ⟨h1, h2⟩ | ⟨h1, h2, h3⟩
          · exact absurd hadd2 (by rw [h1]; exact Bool.false_ne_true)
          · exact Or.inr ⟨h1, h2, by
              simpa [dnsWrites, isDNSWrite, List.filter_append] using h3⟩
        · rw [hb] at h
          cases h
          rcases hP with ⟨h1, h2⟩ | ⟨h1, h2, h3⟩
          · exact Or.inl ⟨h1, by
              simpa [dnsWrites, isDNSWrite, List.filter_append] using h2⟩
          · exact Or.inr ⟨h1, h2, by
              simpa [dnsWrites, isDNSWrite, List.filter_append] using h3⟩
        · rw [hb] at h
          cases h
        · rw [hb] at h
          cases h
        · rw [hb] at h
          cases h
          rcases hP with ⟨h1, h2⟩ | ⟨h1, h2, h3⟩
          · exact Or.inl ⟨h1, by
              simpa [dnsWrites, isDNSWrite, List.filter_append] using h2⟩
          · exact Or.inr ⟨h1, h2, by
              simpa [dnsWrites, isDNSWrite, List.filter_append] using h3⟩
    case hexit =>
      intro i e st st2 hP h
      rcases loopStep_cases env domain i st with
        ⟨-, hh⟩ | ⟨-, -, -, hh⟩ | ⟨-, -, -, hh⟩ | ⟨s, -, hok, hh⟩
      · rw [hh] at h
        cases h
        exact hP
      · rw [hh] at h
        cases h
        rcases hP with ⟨h1, h2⟩ | ⟨h1, h2, h3⟩
        · exact Or.inl ⟨h1, by
            simpa [dnsWrites, isDNSWrite, List.filter_append] using h2⟩
        · exact Or.inr ⟨h1, h2, by
            simpa [dnsWrites, isDNSWrite, List.filter_append] using h3⟩
      · rw [hh] at h
        cases h
      · rw [hh] at h
        have := (handleStatus_exit_state _ _ _ _ _ _ h).1
        subst this
        rcases hP with ⟨h1, h2⟩ | ⟨h1, h2, h3⟩
        · exact Or.inl ⟨h1, by
            simpa [dnsWrites, isDNSWrite, List.filter_append] using h2⟩
        · exact Or.inr ⟨h1, h2, by
            simpa [dnsWrites, isDNSWrite, List.filter_append] using h3⟩
    rcases hinv with ⟨-, h2⟩ | ⟨-, -, h3⟩
    · show (dnsWrites (loopAux env domain orderID 60 0 initLoopState).2.trace).length ≤ 1
      omega
    · show (dnsWrites (loopAux env domain orderID 60 0 initLoopState).2.trace).length ≤ 1
      omega

/-- Claim C4 witness: over the two-label sequence, the first
`domain_verify(A)` poll from the written-A state is skipped, while from
the fresh state it performs the write; for an always-A oracle the whole
run writes at most once. -/
theorem c4_witness :
    loopStep twoLabelsEnv "example.com" 0
        { initLoopState with dnsRecordAdded := true,
                             lastRecordDomain := "_dnsauth.example.com" } =
      .next { initLoopState with dnsRecordAdded := true,
                                 lastRecordDomain := "_dnsauth.example.com",
                                 pollIdx := 1,
                                 trace := [Ev.poll, Ev.sleep 20] } ∧
    (∃ st2, loopStep twoLabelsEnv "example.com" 0 initLoopState = .next st2 ∧
      dnsWrites st2.trace = dnsWrites initLoopState.trace ++
        [.addRecord "example.com" "_dnsauth.example.com" "TXT" "token-1"]) ∧
    (dnsWrites (waitForDNSValidation
        { polls := seqResume, dnsOk := allDnsOk, cancel := noCancel }
        "example.com" "order-1").2.trace).length ≤ 1 :=
  ⟨c4_dns_upsert_policy.2.1 twoLabelsEnv "example.com" 0
      { initLoopState with dnsRecordAdded := true,
                           lastRecordDomain := "_dnsauth.example.com" }
      (dvStatus "_dnsauth.example.com" "token-1") rfl rfl rfl (by decide) rfl rfl,
   c4_dns_upsert_policy.2.2.1 twoLabelsEnv "example.com" 0 initLoopState
      (dvStatus "_dnsauth.example.com" "token-1") rfl rfl rfl (by decide)
      (Or.inl (by decide)),
   c4_dns_upsert_policy.2.2.2.1
      { polls := seqResume, dnsOk := allDnsOk, cancel := noCancel }
      "example.com" "order-1" "_dnsauth.example.com"
      (by
        intro n s h hdv
        match n, h with
        | 0, h => cases h; rfl
        | 1, h => cases h; rfl
        | 2, h => cases h; simp [plainStatus] at hdv
        | (m + 3), h => cases h; simp [plainStatus] at hdv)
      (fun _ => rfl)⟩

/-- Claim C7: `NeedRenew` treats any probe failure as needs-renewal with
zero expiry and no error (for every positive threshold); every call
returns a `none` error; on a successful probe the expiry is passed
through and renewal is needed exactly when no covered name matches the
target or the truncated days-to-expiry is at most the threshold. -/
theorem c7_needRenew_spec :
    ∀ (now : Int) (domain : String) (renewDays : Int),
      (0 < renewDays → NeedRenew none now domain renewDays = (true, 0, none)) ∧
      (∀ probe, (NeedRenew probe now domain renewDays).2.2 = none) ∧
      (∀ pr : ProbeResult,
        (NeedRenew (some pr) now domain renewDays).2.1 = pr.expiry ∧
        ((NeedRenew (some pr) now domain renewDays).1 = true ↔
          matchDomainList pr.certDomains domain = false ∨
          Int.tdiv (pr.expiry - now) 24 ≤ renewDays)) := by
  intro now domain renewDays
  refine ⟨fun _ => rfl, ?_, ?_⟩
  · intro probe
    cases probe with
    | none => rfl
    | some pr =>
      simp only [NeedRenew]
      split <;> rfl
  · intro pr
    simp only [NeedRenew]
    by_cases hm : matchDomainList pr.certDomains domain = false
    · simp [hm]
    · simp [hm, decide_eq_true_eq]

/-- Claim C7 witness: a failed probe with threshold 30 needs renewal with
zero expiry, and a successful probe over a matching certificate follows
the days-to-expiry rule. -/
theorem c7_witness :
    NeedRenew none 0 "example.com" 30 = (true, 0, none) ∧
    ((NeedRenew (some { expiry := 2400, certDomains := ["example.com"] })
        0 "example.com" 30).1 = true ↔
      matchDomainList ["example.com"] "example.com" = false ∨
      Int.tdiv ((2400 : Int) - 0) 24 ≤ 30) :=
  ⟨(c7_needRenew_spec 0 "example.com" 30).1 (by decide),
   ((c7_needRenew_spec 0 "example.com" 30).2.2
      { expiry := 2400, certDomains := ["example.com"] }).2⟩

/-- Appending different suffixes to the same string gives different
strings. -/
theorem append_ne_append_right {a b c : String} (h : b ≠ c) : a ++ b ≠ a ++ c := by
  intro he
  apply h
  apply String.ext
  have hd := congrArg String.data he
  rw [String.data_append, String.data_append] at hd
  exact List.append_cancel_left hd

/-- Claim C10: `SaveCertificate` succeeds exactly when the directory is
created, cert.pem is written and — only for a non-empty private key —
key.pem is written; with an empty private key no key.pem write is ever
attempted; a failing fullchain.pem write never affects success. -/
theorem c10_saveCertificate_spec :
    ∀ (fs : FSEnv) (baseDir domain : String) (cert : Certificate),
      ((SaveCertificate fs baseDir domain cert).1 = none ↔
        fs.mkdirOk = true ∧
        fs.writeOk (baseDir ++ "/" ++ domain ++ "/cert.pem") = true ∧
        (cert.privateKey = "" ∨
          fs.writeOk (baseDir ++ "/" ++ domain ++ "/key.pem") = true)) ∧
      (cert.privateKey = "" →
        ∀ content,
          FileOp.writeFile (baseDir ++ "/" ++ domain ++ "/key.pem") content ∉
            (SaveCertificate fs baseDir domain cert).2) ∧
      (fs.writeOk (baseDir ++ "/" ++ domain ++ "/fullchain.pem") = false →
        fs.mkdirOk = true →
        fs.writeOk (baseDir ++ "/" ++ domain ++ "/cert.pem") = true →
        (cert.privateKey = "" ∨
          fs.writeOk (baseDir ++ "/" ++ domain ++ "/key.pem") = true) →
        (SaveCertificate fs baseDir domain cert).1 = none) := by
  intro fs baseDir domain cert
  have hne1 : baseDir ++ ("/" ++ (domain ++ "/key.pem")) ≠
      baseDir ++ ("/" ++ (domain ++ "/cert.pem")) := by
    intro h
    have h2 := append_ne_append_right (a := baseDir ++ "/" ++ domain)
      (b := "/key.pem") (c := "/cert.pem") (by decide)
    apply h2
    simpa [String.append_assoc] using h
  have hne2 : baseDir ++ ("/" ++ (domain ++ "/key.pem")) ≠
      baseDir ++ ("/" ++ (domain ++ "/fullchain.pem")) := by
    intro h
    have h2 := append_ne_append_right (a := baseDir ++ "/" ++ domain)
      (b := "/key.pem") (c := "/fullchain.pem") (by decide)
    apply h2
    simpa [String.append_assoc] using h
  by_cases hm : fs.mkdirOk = true
  · by_cases hc : fs.writeOk (baseDir ++ ("/" ++ (domain ++ "/cert.pem"))) = true
    · by_cases hk : cert.privateKey = ""
      · refine ⟨?_, ?_, ?_⟩
        · simp [SaveCertificate, hm, hc, hk, String.append_assoc]
        · intro _ content
          simp [SaveCertificate, hm, hc, hk, String.append_assoc, hne1, hne2]
        · intro _ _ _ _
          simp [SaveCertificate, hm, hc, hk, String.append_assoc]
      · by_cases hw : fs.writeOk (baseDir ++ ("/" ++ (domain ++ "/key.pem"))) = true
        · refine ⟨?_, ?_, ?_⟩
          · simp [SaveCertificate, hm, hc, hk, hw, String.append_assoc]
          · intro hk2; exact absurd hk2 hk
          · intro _ _ _ _
            simp [SaveCertificate, hm, hc, hk, hw, String.append_assoc]
        · refine ⟨?_, ?_, ?_⟩
          · simp [SaveCertificate, hm, hc, hk, hw, String.append_assoc]
          · intro hk2; exact absurd hk2 hk
          · rintro _ _ _ (hk2 | hw2)
            · exact absurd hk2 hk
            · exact absurd (by simpa [String.append_assoc] using hw2) hw
    · refine ⟨?_, ?_, ?_⟩
      · simp [SaveCertificate, hm, hc, String.append_assoc]
      · intro _ content
        simp [SaveCertificate, hm, hc, String.append_assoc, hne1]
      · intro _ _ hc2
        exact absurd (by simpa [String.append_assoc] using hc2) hc
  · refine ⟨?_, ?_, ?_⟩
    · simp [SaveCertificate, hm]
    · intro _ content
      simp [SaveCertificate, hm]
    · intro _ hm2
      exact absurd hm2 hm

/-- Claim C10 witness: with an empty private key and a failing
fullchain.pem write, the save still succeeds and no key.pem write is
attempted. -/
theorem c10_witness :
    FileOp.writeFile ("/certs" ++ "/" ++ "example.com" ++ "/key.pem") "K" ∉
      (SaveCertificate chainFailFS "/certs" "example.com" keylessCert).2 ∧
    (SaveCertificate chainFailFS "/certs" "example.com" keylessCert).1 = none :=
  have h := c10_saveCertificate_spec chainFailFS "/certs" "example.com" keylessCert
  ⟨h.2.1 rfl "K", h.2.2 (by decide) rfl (by decide) (Or.inl rfl)⟩

/-- Claim C1 (counterexample to the claim as stated): resuming an order
that is already in state `certificate` fetches and persists it and the
run completes, yet no post-hook Executor invocation occurs anywhere in
the run — `ContinueOrder` contains no step 6. -/
theorem c1_counterexample :
    ContinueOrder certRunEnv "order-1" "example.com" =
      (.ok, [Ev.poll, Ev.download "order-1", Ev.save "example.com"]) ∧
    Ev.hook ∉ (ContinueOrder certRunEnv "order-1" "example.com").2 := by
  exact ⟨by decide, by decide⟩

/-- Claim C1 (amended): the resume entry point, given only (orderId,
domain, CA-provider name, DNS-provider name), polls first, skips directly
to fetch when the order status is already `certificate`, otherwise runs
the validation polling loop and then fetches and persists the
certificate; it never invokes the post-hook Executor (it executes steps
4–5 of the pipeline, not step 6). -/
theorem c1_continueOrder_spec :
    ∀ (env : RunEnv) (orderID domain : String),
      Ev.hook ∉ (ContinueOrder env orderID domain).2 ∧
      (∃ rest, (ContinueOrder env orderID domain).2 = Ev.poll :: rest) ∧
      (∀ s, env.polls 0 = .ok s → s.status = "certificate" →
        env.downloadOk = true → env.saveOk = true →
        ContinueOrder env orderID domain =
          (.ok, [Ev.poll, Ev.download orderID, Ev.save domain])) ∧
      (∀ s, env.polls 0 = .ok s → s.status ≠ "certificate" →
        env.downloadOk = true → env.saveOk = true →
        (waitForDNSValidation env.loopEnvAfterOne domain orderID).1 = .success →
        ContinueOrder env orderID domain =
          (.ok, Ev.poll ::
            (waitForDNSValidation env.loopEnvAfterOne domain orderID).2.trace
            ++ [Ev.download orderID, Ev.save domain])) := by
  intro env orderID domain
  have hloop := loopAux_no_hook_no_fetch env.loopEnvAfterOne domain orderID
    60 0 initLoopState ⟨by simp [initLoopState], rfl⟩
  refine ⟨?_, ?_, ?_, ?_⟩
  · cases hpoll : env.polls 0 with
    | error u =>
      simp [ContinueOrder, hpoll]
    | ok s =>
      by_cases hcert : s.status = "certificate"
      · by_cases hdl : env.downloadOk = true
        · by_cases hsv : env.saveOk = true
          · simp [ContinueOrder, hpoll, hcert, hdl, hsv]
          · simp [ContinueOrder, hpoll, hcert, hdl, hsv]
        · simp [ContinueOrder, hpoll, hcert, hdl]
      · cases hout : (waitForDNSValidation env.loopEnvAfterOne domain orderID).1 with
        | success =>
          by_cases hdl : env.downloadOk = true
          · by_cases hsv : env.saveOk = true
            · simp [ContinueOrder, hpoll, hcert, hout, hdl, hsv,
                List.mem_append]
              exact hloop.1
            · simp [ContinueOrder, hpoll, hcert, hout, hdl, hsv,
                List.mem_append]
              exact hloop.1
          · simp [ContinueOrder, hpoll, hcert, hout, hdl, List.mem_append]
            exact hloop.1
        | cancelled =>
          simp [ContinueOrder, hpoll, hcert, hout]
          exact hloop.1
        | pollErrors =>
          simp [ContinueOrder, hpoll, hcert, hout]
          exact hloop.1
        | orderFailed =>
          simp [ContinueOrder, hpoll, hcert, hout]
          exact hloop.1
        | timeout o =>
          simp [ContinueOrder, hpoll, hcert, hout]
          exact hloop.1
  · cases hpoll : env.polls 0 with
    | error u =>
      exact ⟨[], by simp [ContinueOrder, hpoll]⟩
    | ok s =>
      by_cases hcert : s.status = "certificate"
      · by_cases hdl : env.downloadOk = true
        · by_cases hsv : env.saveOk = true
          · exact ⟨[Ev.download orderID, Ev.save domain],
              by simp [ContinueOrder, hpoll, hcert, hdl, hsv]⟩
          · exact ⟨[Ev.download orderID, Ev.save domain],
              by simp [ContinueOrder, hpoll, hcert, hdl, hsv]⟩
        · exact ⟨[Ev.download orderID],
            by simp [ContinueOrder, hpoll, hcert, hdl]⟩
      · cases hout : (waitForDNSValidation env.loopEnvAfterOne domain orderID).1 with
        | success =>
          by_cases hdl : env.downloadOk = true
          · by_cases hsv : env.saveOk = true
            · exact ⟨(waitForDNSValidation env.loopEnvAfterOne domain orderID).2.trace
                ++ [Ev.download orderID, Ev.save domain],
                by simp [ContinueOrder, hpoll, hcert, hout, hdl, hsv]⟩
            · exact ⟨(waitForDNSValidation env.loopEnvAfterOne domain orderID).2.trace
                ++ [Ev.download orderID, Ev.save domain],
                by simp [ContinueOrder, hpoll, hcert, hout, hdl, hsv]⟩
          · exact ⟨(waitForDNSValidation env.loopEnvAfterOne domain orderID).2.trace
              ++ [Ev.download orderID],
              by simp [ContinueOrder, hpoll, hcert, hout, hdl]⟩
        | cancelled =>
          exact ⟨(waitForDNSValidation env.loopEnvAfterOne domain orderID).2.trace,
            by simp [ContinueOrder, hpoll, hcert, hout]⟩
        | pollErrors =>
          exact ⟨(waitForDNSValidation env.loopEnvAfterOne domain orderID).2.trace,
            by simp [ContinueOrder, hpoll, hcert, hout]⟩
        | orderFailed =>
          exact ⟨(waitForDNSValidation env.loopEnvAfterOne domain orderID).2.trace,
            by simp [ContinueOrder, hpoll, hcert, hout]⟩
        | timeout o =>
          exact ⟨(waitForDNSValidation env.loopEnvAfterOne domain orderID).2.trace,
            by simp [ContinueOrder, hpoll, hcert, hout]⟩
  · intro s hpoll hcert hdl hsv
    simp [ContinueOrder, hpoll, hcert, hdl, hsv]
  · intro s hpoll hcert hdl hsv hsucc
    simp [ContinueOrder, hpoll, hcert, hdl, hsv, hsucc]

/-- Claim C1 witness: the certificate-skip resume and the loop-path
resume, at concrete oracles, with no hook event. -/
theorem c1_witness :
    Ev.hook ∉ (ContinueOrder certRunEnv "order-1" "example.com").2 ∧
    ContinueOrder certRunEnv "order-2" "example.com" =
      (.ok, [Ev.poll, Ev.download "order-2", Ev.save "example.com"]) ∧
    ContinueOrder resumeRunEnv "order-1" "example.com" =
      (.ok, Ev.poll ::
        (waitForDNSValidation resumeRunEnv.loopEnvAfterOne "example.com"
          "order-1").2.trace
        ++ [Ev.download "order-1", Ev.save "example.com"]) :=
  ⟨(c1_continueOrder_spec certRunEnv "order-1" "example.com").1,
   (c1_continueOrder_spec certRunEnv "order-2" "example.com").2.2.1
      (plainStatus "certificate") rfl rfl rfl rfl,
   (c1_continueOrder_spec resumeRunEnv "order-1" "example.com").2.2.2
      (dvStatus "_dnsauth.example.com" "token-1") rfl (by decide) rfl rfl
      (by decide)⟩

/-- Claim C9: when the reuse check returns a certificate record and both
the fetch by certificate id and the save succeed, the pipeline completes
successfully for the domain, having fetched by certificate id and
persisted, with no issuance request and no fetch by order id. -/
theorem c9_reuse_path :
    ∀ (env : PDEnv) (domain : String) (renewDays : Int) (info : CertInfo),
      env.providersOk = true → env.findValid = .ok (some info) →
      env.getDetailOk = true → env.saveOk 0 = true →
      (ProcessDomain env domain renewDays).1 = .ok ∧
      Ev.getDetail info.certID ∈ (ProcessDomain env domain renewDays).2 ∧
      Ev.save domain ∈ (ProcessDomain env domain renewDays).2 ∧
      (∀ d, Ev.applyCert d ∉ (ProcessDomain env domain renewDays).2) ∧
      (∀ o, Ev.download o ∉ (ProcessDomain env domain renewDays).2) := by
  intro env domain renewDays info hprov hfind hdet hsave
  have hPD : ProcessDomain env domain renewDays =
      postHookStep env [Ev.findValid, Ev.getDetail info.certID, Ev.save domain] := by
    simp [ProcessDomain, hprov, hfind, hdet, hsave]
  by_cases hpc :
      (if env.postCommand = "" then env.globalPostCommand else env.postCommand) = ""
  · have hps : postHookStep env
        [Ev.findValid, Ev.getDetail info.certID, Ev.save domain] =
        (.ok, [Ev.findValid, Ev.getDetail info.certID, Ev.save domain]) := by
      simp [postHookStep, hpc]
    rw [hPD, hps]
    refine ⟨rfl, by simp, by simp, fun d => by simp, fun o => by simp⟩
  · have hps : postHookStep env
        [Ev.findValid, Ev.getDetail info.certID, Ev.save domain] =
        (.ok, [Ev.findValid, Ev.getDetail info.certID, Ev.save domain, Ev.hook]) := by
      simp [postHookStep, hpc]
    rw [hPD, hps]
    refine ⟨rfl, by simp, by simp, fun d => by simp, fun o => by simp⟩

/-- Claim C9 witness: the reuse pipeline run over `reusePDEnv` succeeds,
fetches `cert-42` by id, and neither applies for nor downloads an
order. -/
theorem c9_witness :
    (ProcessDomain reusePDEnv "example.com" 30).1 = .ok ∧
    Ev.getDetail "cert-42" ∈ (ProcessDomain reusePDEnv "example.com" 30).2 ∧
    (∀ d, Ev.applyCert d ∉ (ProcessDomain reusePDEnv "example.com" 30).2) ∧
    (∀ o, Ev.download o ∉ (ProcessDomain reusePDEnv "example.com" 30).2) :=
  have h := c9_reuse_path reusePDEnv "example.com" 30
    { certID := "cert-42", notAfter := 2400 } rfl rfl rfl rfl
  ⟨h.1, h.2.1, h.2.2.2.1, h.2.2.2.2⟩

/-- Claim C5: resuming from the orderId alone over
[domain_verify(A), domain_verify(A), process, certificate] writes the DNS
record exactly once and ends in exactly one successful fetch, and its
poll count, DNS writes and fetches coincide with those of an
uninterrupted pipeline run driven by the same status sequence. -/
theorem c5_resume_equivalence :
    (ContinueOrder resumeRunEnv "order-1" "example.com").1 = .ok ∧
    dnsWrites (ContinueOrder resumeRunEnv "order-1" "example.com").2 =
      [.addRecord "example.com" "_dnsauth.example.com" "TXT" "token-1"] ∧
    fetches (ContinueOrder resumeRunEnv "order-1" "example.com").2 =
      [.download "order-1"] ∧
    (ProcessDomain resumePDEnv "example.com" 30).1 = .ok ∧
    countPolls (ContinueOrder resumeRunEnv "order-1" "example.com").2 =
      countPolls (ProcessDomain resumePDEnv "example.com" 30).2 ∧
    dnsWrites (ContinueOrder resumeRunEnv "order-1" "example.com").2 =
      dnsWrites (ProcessDomain resumePDEnv "example.com" 30).2 ∧
    fetches (ContinueOrder resumeRunEnv "order-1" "example.com").2 =
      fetches (ProcessDomain resumePDEnv "example.com" 30).2 := by
  exact ⟨by decide, by decide, by decide, by decide, by decide, by decide, by decide⟩

end SslManager
